import Mathlib

/-!
Shallow embedding of the Graph Construction & Validation Engine of the
component-visualizer repository: the row-to-graph transformation of
`ExcelParser` (sanitizeId, getColorForCategory, transformToComponentData)
and the multi-stage `DataValidator.validate` pipeline.

Strings are Lean `String`s; JavaScript whitespace (the regex class \s and
the character set removed by String.prototype.trim) is modelled by the
explicit character list `wsChars`.  JavaScript numbers are modelled by `Rat`
(all arithmetic the engine performs is exact on the inputs considered) and
`Math.round` by `jsRound`.  Nullable JavaScript values are `Option`s; a
value that may be null/undefined, a truthy non-array, or an array is a
`JField`.  Thrown exceptions are explicit `Except`/`Option` error values.
-/

namespace CompViz

/-! ### Character classes (JavaScript \s, ASCII alphanumerics) -/

/-- The characters matched by the JavaScript regex class \s and removed by
String.prototype.trim: ASCII whitespace plus Unicode space separators. -/
def wsChars : List Char :=
  ['\t', '\n', '\x0b', '\x0c', '\r', ' ', '\u00A0', '\u1680',
   '\u2000', '\u2001', '\u2002', '\u2003', '\u2004', '\u2005', '\u2006',
   '\u2007', '\u2008', '\u2009', '\u200A', '\u2028', '\u2029', '\u202F',
   '\u205F', '\u3000', '\uFEFF']

def jsWS (c : Char) : Bool := wsChars.contains c

def upperChars : List Char :=
  ['A', 'B', 'C', 'D', 'E', 'F', 'G', 'H', 'I', 'J', 'K', 'L', 'M',
   'N', 'O', 'P', 'Q', 'R', 'S', 'T', 'U', 'V', 'W', 'X', 'Y', 'Z']

def lowerChars : List Char :=
  ['a', 'b', 'c', 'd', 'e', 'f', 'g', 'h', 'i', 'j', 'k', 'l', 'm',
   'n', 'o', 'p', 'q', 'r', 's', 't', 'u', 'v', 'w', 'x', 'y', 'z']

def digitChars : List Char :=
  ['0', '1', '2', '3', '4', '5', '6', '7', '8', '9']

/-- The characters kept by the replace of /[^a-zA-Z0-9\s-_]/g in sanitizeId:
ASCII letters and digits, \s whitespace, hyphen and underscore. -/
def keepChar (c : Char) : Bool :=
  upperChars.contains c || lowerChars.contains c || digitChars.contains c ||
    jsWS c || c == '-' || c == '_'

/-- Characters that may appear in a sanitized identifier. -/
def goodChar (c : Char) : Bool :=
  lowerChars.contains c || digitChars.contains c || c == '-' || c == '_'

/-- ASCII lowercasing of one character (String.prototype.toLowerCase on the
ASCII range, which is the only range reaching it in sanitizeId). -/
def asciiLower (c : Char) : Char :=
  if upperChars.contains c then Char.ofNat (c.toNat + 32) else c

/-! ### JavaScript string primitives over List Char -/

/-- String.prototype.trim on a character list. -/
def trimList (l : List Char) : List Char :=
  ((l.dropWhile jsWS).reverse.dropWhile jsWS).reverse

/-- The replace of /\s+/g by an underscore: each maximal whitespace run
collapses to a single underscore. -/
def collapseWS : List Char → List Char
  | [] => []
  | [c] => if jsWS c then ['_'] else [c]
  | c :: d :: rest =>
    if jsWS c then
      if jsWS d then collapseWS (d :: rest)
      else '_' :: collapseWS (d :: rest)
    else c :: collapseWS (d :: rest)

/-- The character-list form of ExcelParser.sanitizeId: trim, remove the
characters outside the kept class, collapse whitespace runs to underscores,
lowercase. -/
def sanitizeList (l : List Char) : List Char :=
  (collapseWS ((trimList l).filter keepChar)).map asciiLower

/-- ExcelParser.sanitizeId. -/
def sanitizeId (s : String) : String := ⟨sanitizeList s.toList⟩

/-- String.prototype.trim. -/
def jsTrim (s : String) : String := ⟨trimList s.toList⟩

/-- String.prototype.toLowerCase restricted to ASCII (the model of the
lowercasing applied to node names for duplicate detection). -/
def jsToLowerStr (s : String) : String := ⟨s.toList.map asciiLower⟩

/-! ### Rational models of the JavaScript number operations used -/

/-- Math.round: round half away from positive infinity direction upward,
as JavaScript does (round(x) = floor(x + 1/2)). -/
def jsRound (q : ℚ) : ℤ := ⌊q + 1 / 2⌋

/-- The JavaScript remainder a % b for a nonnegative dividend and positive
divisor (the only use is hue % 360). -/
def jsMod (a b : ℚ) : ℚ := a - b * ⌊a / b⌋

/-! ### Category colors (ExcelParser.getColorForCategory) -/

/-- An hsl(h, s%, l%) color value.  The hue (size × 137.508) % 360 is a
multiple of a thousandth of a degree, so it is carried exactly as an
integer count of thousandths (hueMilli); two colors of one run are equal
exactly when their hues are. -/
structure HslColor where
  hueMilli : ℕ
  saturation : ℕ
  lightness : ℕ
deriving DecidableEq, Repr

/-- Association-list lookup (the model of Map.prototype.get/has). -/
def lookupA {α β : Type} [DecidableEq α] (k : α) : List (α × β) → Option β
  | [] => none
  | (k', v) :: rest => if k' = k then some v else lookupA k rest

/-- The golden-angle approximation constant used by the source: 137.508. -/
def goldenAngle : ℚ := (137508 : ℚ) / 1000

/-- The hue assigned when the color map has n entries, in thousandths of a
degree: (n × 137508) mod 360000.  The theorem hueMilliAt_spec identifies
hueMilliAt n / 1000 with the rational (n × 137.508) % 360. -/
def hueMilliAt (n : Nat) : ℕ := (137508 * n) % 360000

/-- ExcelParser.getColorForCategory: on a fresh category, assign
hsl((size * 137.508) % 360, 70%, 50%) and record it; on a repeat, return
the recorded color.  Returns the color and the updated map. -/
def getColorForCategory (category : String) (colorMap : List (String × HslColor)) :
    HslColor × List (String × HslColor) :=
  match lookupA category colorMap with
  | some c => (c, colorMap)
  | none =>
    let c : HslColor := ⟨hueMilliAt colorMap.length, 70, 50⟩
    (c, colorMap ++ [(category, c)])

/-! ### Ingestion data model (the shapes transformToComponentData builds) -/

/-- The metadata object attached to a node by transformToComponentData. -/
structure NodeMeta where
  rowIndex : Nat
  highLevelInput : Option String := none
  highLevelOutput : Option String := none
  category : Option String := none
deriving DecidableEq, Repr

structure ComponentNode where
  id : String
  name : String
  type : String
  description : String
  metadata : NodeMeta
deriving DecidableEq, Repr

/-- The metadata object attached to a link by transformToComponentData. -/
structure LinkMeta where
  color : HslColor
  category : String
deriving DecidableEq, Repr

structure ComponentLink where
  source : String
  target : String
  type : String
  label : String
  metadata : LinkMeta
deriving DecidableEq, Repr

structure GraphMeta where
  title : String
  description : String
  version : String
deriving DecidableEq, Repr

structure ComponentData where
  nodes : List ComponentNode
  links : List ComponentLink
  metadata : GraphMeta
deriving DecidableEq, Repr

/-- One spreadsheet row (empty cells are empty strings, as sheet_to_json
produces with defval set to the empty string). -/
structure Row where
  solutions : String := ""
  solutionInput : String := ""
  highLevelInput : String := ""
  solutionOutput : String := ""
  highLevelOutput : String := ""
deriving DecidableEq, Repr

/-- Map.prototype.set keyed by node id: overwrite in place when the id is
already present, append otherwise. -/
def upsertNode (ns : List ComponentNode) (n : ComponentNode) : List ComponentNode :=
  if ns.any (fun m => m.id = n.id) then
    ns.map (fun m => if m.id = n.id then n else m)
  else
    ns ++ [n]

/-- The mutable state of one transformToComponentData run. -/
structure IngestState where
  nodes : List ComponentNode
  links : List ComponentLink
  colorMap : List (String × HslColor)
deriving Repr

/-- The JavaScript truthiness test applied to a trimmed cell, and the
defaulting with the or-operator on the raw cell. -/
def rawOr (s dflt : String) : String := if s = "" then dflt else s

def trimOr (s dflt : String) : String :=
  if jsTrim s = "" then dflt else jsTrim s

/-- Row step 1: upsert the solution (service) node when Solutions is
non-blank. -/
def stepSolution (index : Nat) (row : Row) (st : IngestState) : IngestState :=
  if jsTrim row.solutions ≠ "" then
    let solutionId := sanitizeId row.solutions
    let node : ComponentNode :=
      { id := solutionId
        name := jsTrim row.solutions
        type := "service"
        description := "Component from row " ++ toString (index + 1)
        metadata :=
          { rowIndex := index + 1
            highLevelInput := some (jsTrim row.highLevelInput)
            highLevelOutput := some (jsTrim row.highLevelOutput) } }
    { st with nodes := upsertNode st.nodes node }
  else st

/-- Row step 2: when Solution Input and Solutions are both non-blank, upsert
the input interface node and append the input link; the color is looked up
with the raw (untrimmed) High Level Input cell, defaulted to Input. -/
def stepInput (index : Nat) (row : Row) (st : IngestState) : IngestState :=
  if jsTrim row.solutionInput ≠ "" ∧ jsTrim row.solutions ≠ "" then
    let inputId := sanitizeId row.solutionInput
    let solutionId := sanitizeId row.solutions
    let nodes' := upsertNode st.nodes
      { id := inputId
        name := jsTrim row.solutionInput
        type := "interface"
        description := "Input interface"
        metadata :=
          { rowIndex := index + 1
            category := some (trimOr row.highLevelInput "Input") } }
    let cc := getColorForCategory (rawOr row.highLevelInput "Input") st.colorMap
    { nodes := nodes'
      links := st.links ++
        [{ source := inputId
           target := solutionId
           type := "dependency"
           label := "provides input to"
           metadata :=
             { color := cc.1
               category := trimOr row.highLevelInput "Input" } }]
      colorMap := cc.2 }
  else st

/-- Row step 3: the symmetric output step, with the link oriented from the
solution to the output interface. -/
def stepOutput (index : Nat) (row : Row) (st : IngestState) : IngestState :=
  if jsTrim row.solutionOutput ≠ "" ∧ jsTrim row.solutions ≠ "" then
    let outputId := sanitizeId row.solutionOutput
    let solutionId := sanitizeId row.solutions
    let nodes' := upsertNode st.nodes
      { id := outputId
        name := jsTrim row.solutionOutput
        type := "interface"
        description := "Output interface"
        metadata :=
          { rowIndex := index + 1
            category := some (trimOr row.highLevelOutput "Output") } }
    let cc := getColorForCategory (rawOr row.highLevelOutput "Output") st.colorMap
    { nodes := nodes'
      links := st.links ++
        [{ source := solutionId
           target := outputId
           type := "dependency"
           label := "produces output"
           metadata :=
             { color := cc.1
               category := trimOr row.highLevelOutput "Output" } }]
      colorMap := cc.2 }
  else st

/-- The body of the per-row forEach of transformToComponentData.  Row
processing cannot fault in this model (all cells are strings), so the
per-row try/catch of the source is vacuous here. -/
def processRow (index : Nat) (row : Row) (st : IngestState) : IngestState :=
  stepOutput index row (stepInput index row (stepSolution index row st))

/-- The forEach over the rows, carrying the row index. -/
def ingestRows : Nat → List Row → IngestState → IngestState
  | _, [], st => st
  | i, r :: rs, st => ingestRows (i + 1) rs (processRow i r st)

def emptyIngestState : IngestState := ⟨[], [], []⟩

/-- ExcelParser.transformToComponentData. -/
def transformToComponentData (data : List Row) (fileName : String) : ComponentData :=
  let st := ingestRows 0 data emptyIngestState
  { nodes := st.nodes
    links := st.links
    metadata :=
      { title := "Component Map - " ++ fileName
        description := "Generated from " ++ fileName ++ " with " ++
          toString st.nodes.length ++ " components and " ++
          toString st.links.length ++ " connections"
        version := "1.0.0" } }

/-! ### Validator input model

`DataValidator.validate` receives an arbitrary JavaScript value.  The model
universe covers the cases the control flow distinguishes: the whole datum
may be null/undefined (`RawInput.nullData`) or an object; each of its
`nodes`/`links` members may be null/undefined, a truthy non-array value, or
an array; each field of a node or link record may be absent (`none`) or a
string.  Property access on null/undefined and calling a missing method
(forEach/map/filter on a non-array) throw; throws are explicit error
values threaded to the try/catch of `validate`. -/

inductive JField (α : Type) where
  | nullish
  | notArray
  | arr (xs : List α)
deriving DecidableEq, Repr

/-- JavaScript truthiness of a nodes/links member: null/undefined is falsy,
any object (array or not) is truthy. -/
def JField.truthy {α : Type} : JField α → Bool
  | .nullish => false
  | .notArray => true
  | .arr _ => true

def JField.isArr {α : Type} : JField α → Bool
  | .arr _ => true
  | _ => false

def JField.arrOrNil {α : Type} : JField α → List α
  | .arr xs => xs
  | _ => []

structure RawNode where
  id : Option String := none
  name : Option String := none
  type : Option String := none
deriving DecidableEq, Repr

structure RawLink where
  source : Option String := none
  target : Option String := none
  type : Option String := none
deriving DecidableEq, Repr

structure RawData where
  nodes : JField RawNode
  links : JField RawLink
deriving DecidableEq, Repr

inductive RawInput where
  | nullData
  | obj (d : RawData)
deriving DecidableEq, Repr

/-- JavaScript truthiness of an optional string: undefined and the empty
string are falsy. -/
def optTruthy : Option String → Bool
  | none => false
  | some s => s != ""

/-- Template-literal interpolation of a possibly-undefined string. -/
def optToJs : Option String → String
  | none => "undefined"
  | some s => s

/-- The test rejecting a field: absent, or blank after trimming. -/
def blankO : Option String → Bool
  | none => true
  | some s => jsTrim s == ""

/-! ### Validation report shapes -/

inductive Sev where
  | error
  | warning
deriving DecidableEq, Repr

structure VError where
  code : String
  message : String
  severity : Sev
  nodeId : Option String := none
  linkIndex : Option Nat := none
deriving DecidableEq, Repr

/-- The affectedNodes context of a warning: a list of node ids, or (for the
circular-dependency warning) a list of id paths. -/
inductive Affected where
  | ids (l : List String)
  | paths (l : List (List String))
deriving DecidableEq, Repr

structure VWarning where
  code : String
  message : String
  suggestion : Option String := none
  nodeId : Option String := none
  linkIndex : Option Nat := none
  affected : Option Affected := none
deriving DecidableEq, Repr

structure ValidationMetrics where
  totalNodes : Nat
  totalLinks : Nat
  orphanedNodes : Nat
  circularDependencies : Nat
  nodesByType : List (String × Nat)
  linksByType : List (String × Nat)
  complexityScore : ℤ
deriving DecidableEq, Repr

structure ValidationResult where
  isValid : Bool
  errors : List VError
  warnings : List VWarning
  metrics : ValidationMetrics
deriving DecidableEq, Repr

/-- DataValidator.getEmptyMetrics. -/
def getEmptyMetrics : ValidationMetrics :=
  { totalNodes := 0
    totalLinks := 0
    orphanedNodes := 0
    circularDependencies := 0
    nodesByType := []
    linksByType := []
    complexityScore := 0 }

def validNodeTypes : List String :=
  ["service", "interface", "module", "class", "utility"]

def validLinkTypes : List String :=
  ["dependency", "implements", "extends", "uses"]

/-! ### Stage 1: basic structure -/

/-- DataValidator.validateBasicStructure: the checks on the datum itself.
The NO_NODES push fires exactly when nodes is an empty array (on a
non-array, the optional-chained length is undefined). -/
def validateBasicStructure : RawInput → List VError
  | .nullData =>
    [{ code := "MISSING_DATA"
       message := "No component data provided"
       severity := .error }]
  | .obj d =>
    (if d.nodes.isArr then [] else
      [{ code := "INVALID_NODES"
         message := "Nodes must be an array"
         severity := .error }]) ++
    (if d.links.isArr then [] else
      [{ code := "INVALID_LINKS"
         message := "Links must be an array"
         severity := .error }]) ++
    (match d.nodes with
     | .arr [] =>
       [{ code := "NO_NODES"
          message := "No components found in the data"
          severity := .error }]
     | _ => [])

/-! ### Stage 2: node checks -/

/-- DataValidator.validateNode.  Returns the pushed errors and warnings and
the updated seen-id and seen-name sets. -/
def validateNode (node : RawNode) (index : Nat) (seenIds seenNames : List String) :
    List VError × List VWarning × List String × List String :=
  let ctxId : Option String :=
    some (if optTruthy node.id then optToJs node.id else "node_" ++ toString index)
  let e1 : List VError :=
    if blankO node.id then
      [{ code := "MISSING_NODE_ID"
         message := "Node at index " ++ toString index ++ " is missing a valid ID"
         severity := .error
         nodeId := ctxId }]
    else []
  let e2 : List VError :=
    if blankO node.name then
      [{ code := "MISSING_NODE_NAME"
         message := "Node \x27" ++ optToJs node.id ++ "\x27 is missing a valid name"
         severity := .error
         nodeId := ctxId }]
    else []
  let e3 : List VError :=
    if optTruthy node.type then [] else
      [{ code := "MISSING_NODE_TYPE"
         message := "Node \x27" ++ optToJs node.id ++ "\x27 is missing a valid type"
         severity := .error
         nodeId := ctxId }]
  let idStep : List VError × List String :=
    match node.id with
    | some s =>
      if s ≠ "" then
        if s ∈ seenIds then
          ([{ code := "DUPLICATE_NODE_ID"
              message := "Duplicate node ID: \x27" ++ s ++ "\x27"
              severity := .error
              nodeId := ctxId }], seenIds)
        else ([], seenIds ++ [s])
      else ([], seenIds)
    | none => ([], seenIds)
  let nameStep : List VWarning × List String :=
    match node.name with
    | some s =>
      if s ≠ "" then
        let key := jsToLowerStr (jsTrim s)
        if key ∈ seenNames then
          ([{ code := "DUPLICATE_NODE_NAME"
              message := "Duplicate node name: \x27" ++ s ++ "\x27 (node: " ++
                optToJs node.id ++ ")"
              suggestion := some "Consider using unique names for better clarity"
              nodeId := ctxId }], seenNames)
        else ([], seenNames ++ [key])
      else ([], seenNames)
    | none => ([], seenNames)
  let w2 : List VWarning :=
    match node.name with
    | some s =>
      if s ≠ "" ∧ s.length > 100 then
        [{ code := "LONG_NODE_NAME"
           message := "Node \x27" ++ optToJs node.id ++ "\x27 has a very long name (" ++
             toString s.length ++ " characters)"
           suggestion := some "Consider shortening for better visualization"
           nodeId := ctxId }]
      else []
    | none => []
  let w3 : List VWarning :=
    match node.type with
    | some ty =>
      if ty ≠ "" ∧ ty ∉ validNodeTypes then
        [{ code := "UNKNOWN_NODE_TYPE"
           message := "Node \x27" ++ optToJs node.id ++ "\x27 has unknown type: \x27" ++
             ty ++ "\x27"
           suggestion := some "Consider using one of: service, interface, module, class, utility"
           nodeId := ctxId }]
      else []
    | none => []
  (e1 ++ e2 ++ e3 ++ idStep.1, nameStep.1 ++ w2 ++ w3, idStep.2, nameStep.2)

/-- The forEach over nodes in DataValidator.validateNodes. -/
def validateNodesGo : List RawNode → Nat → List String → List String →
    List VError × List VWarning
  | [], _, _, _ => ([], [])
  | n :: rest, i, seenIds, seenNames =>
    let step := validateNode n i seenIds seenNames
    let further := validateNodesGo rest (i + 1) step.2.2.1 step.2.2.2
    (step.1 ++ further.1, step.2.1 ++ further.2)

/-- DataValidator.validateNodes: skipped entirely unless nodes is an array;
afterwards the node-count performance warning. -/
def validateNodes (nodes : JField RawNode) : List VError × List VWarning :=
  match nodes with
  | .arr ns =>
    let acc := validateNodesGo ns 0 [] []
    (acc.1,
     acc.2 ++
       (if ns.length > 1000 then
         [{ code := "TOO_MANY_NODES"
            message := "Large number of nodes (" ++ toString ns.length ++
              ") may impact performance"
            suggestion := some "Consider filtering or splitting the data" }]
        else []))
  | _ => ([], [])

/-! ### Stage 3: link checks -/

/-- DataValidator.validateLink.  `nodeIds` is the set of defined node ids,
`linkSet` the set of composite keys of previously seen links; returns the
pushed errors and warnings and the updated key set. -/
def validateLink (link : RawLink) (index : Nat) (nodeIds : List String)
    (linkSet : List String) : List VError × List VWarning × List String :=
  let e1 : List VError :=
    if optTruthy link.source then [] else
      [{ code := "MISSING_LINK_SOURCE"
         message := "Link at index " ++ toString index ++ " is missing a valid source"
         severity := .error
         linkIndex := some index }]
  let e2 : List VError :=
    if optTruthy link.target then [] else
      [{ code := "MISSING_LINK_TARGET"
         message := "Link at index " ++ toString index ++ " is missing a valid target"
         severity := .error
         linkIndex := some index }]
  let e3 : List VError :=
    match link.source with
    | some s =>
      if s ≠ "" ∧ s ∉ nodeIds then
        [{ code := "INVALID_LINK_SOURCE"
           message := "Link references non-existent source node: \x27" ++ s ++ "\x27"
           severity := .error
           nodeId := some s
           linkIndex := some index }]
      else []
    | none => []
  let e4 : List VError :=
    match link.target with
    | some t =>
      if t ≠ "" ∧ t ∉ nodeIds then
        [{ code := "INVALID_LINK_TARGET"
           message := "Link references non-existent target node: \x27" ++ t ++ "\x27"
           severity := .error
           nodeId := some t
           linkIndex := some index }]
      else []
    | none => []
  let w1 : List VWarning :=
    match link.source, link.target with
    | some s, some t =>
      if s ≠ "" ∧ t ≠ "" ∧ s = t then
        [{ code := "SELF_REFERENCE"
           message := "Node \x27" ++ s ++ "\x27 has a link to itself"
           suggestion := some "Self-references may create visual clutter"
           linkIndex := some index }]
      else []
    | _, _ => []
  let dupStep : List VWarning × List String :=
    match link.source, link.target with
    | some s, some t =>
      if s ≠ "" ∧ t ≠ "" then
        let linkKey := s ++ "->" ++ t
        let reverseKey := t ++ "->" ++ s
        if linkKey ∈ linkSet then
          ([{ code := "DUPLICATE_LINK"
              message := "Duplicate link from \x27" ++ s ++ "\x27 to \x27" ++ t ++ "\x27"
              suggestion := some "Remove duplicate connections"
              linkIndex := some index }], linkSet)
        else
          let linkSet' := linkKey :: linkSet
          (if reverseKey ∈ linkSet' then
            [{ code := "BIDIRECTIONAL_LINK"
               message := "Bidirectional link between \x27" ++ s ++ "\x27 and \x27" ++
                 t ++ "\x27"
               suggestion := some "Consider if both directions are necessary"
               linkIndex := some index }]
           else [], linkSet')
      else ([], linkSet)
    | _, _ => ([], linkSet)
  let w3 : List VWarning :=
    match link.type with
    | some ty =>
      if ty ≠ "" ∧ ty ∉ validLinkTypes then
        [{ code := "UNKNOWN_LINK_TYPE"
           message := "Link has unknown type: \x27" ++ ty ++ "\x27"
           suggestion := some "Consider using one of: dependency, implements, extends, uses"
           linkIndex := some index }]
      else []
    | none => []
  (e1 ++ e2 ++ e3 ++ e4, w1 ++ dupStep.1 ++ w3, dupStep.2)

/-- The forEach over links in DataValidator.validateLinks. -/
def validateLinksGo : List RawLink → Nat → List String → List String →
    List VError × List VWarning × List String
  | [], _, _, linkSet => ([], [], linkSet)
  | l :: rest, i, nodeIds, linkSet =>
    let step := validateLink l i nodeIds linkSet
    let further := validateLinksGo rest (i + 1) nodeIds step.2.2
    (step.1 ++ further.1, step.2.1 ++ further.2.1, further.2.2)

/-- DataValidator.validateLinks: skipped unless links is an array; building
the node-id set throws when nodes is a truthy non-array (map is not a
function); a nullish nodes value yields the empty id set. -/
def validateLinks (links : JField RawLink) (nodes : JField RawNode) :
    Except Unit (List VError × List VWarning) :=
  match links with
  | .arr ls =>
    match nodes with
    | .notArray => .error ()
    | nf =>
      let nodeIds := (nf.arrOrNil).filterMap (fun n => n.id)
      let acc := validateLinksGo ls 0 nodeIds []
      .ok (acc.1,
        acc.2.1 ++
          (if ls.length > 5000 then
            [{ code := "TOO_MANY_LINKS"
               message := "Large number of links (" ++ toString ls.length ++
                 ") may impact performance"
               suggestion := some "Consider simplifying the component relationships" }]
           else []))
  | _ => .ok ([], [])

/-! ### Cycle detection (DataValidator.detectCircularDependencies) -/

/-- The adjacency map built from the links: keyed by source (which may be
undefined), values appended in link order. -/
def adjOf : List RawLink → List (Option String × List (Option String))
  | [] => []
  | l :: rest => adjOfStep l.source l.target (adjOf rest)
where
  adjOfStep (s : Option String) (t : Option String) :
      List (Option String × List (Option String)) →
      List (Option String × List (Option String))
    | [] => [(s, [t])]
    | (k, vs) :: m => if k = s then (k, vs ++ [t]) :: m else (k, vs) :: adjOfStep s t m

structure DfsState where
  visited : List (Option String)
  stack : List (Option String)
  cycles : List (List (Option String))
deriving Repr

/-- The recursive dfs of detectCircularDependencies, with explicit fuel (the
callers pass fuel exceeding the maximal recursion depth, which is bounded by
the number of distinct vertices plus one). -/
def dfs (adj : List (Option String × List (Option String))) :
    Nat → Option String → List (Option String) → DfsState → DfsState
  | 0, _, _, st => st
  | fuel + 1, node, path, st =>
    if st.stack.contains node then
      match path.findIdx? (fun x => x == node) with
      | some i => { st with cycles := st.cycles ++ [path.drop i ++ [node]] }
      | none => st
    else if st.visited.contains node then st
    else
      let st1 : DfsState := { st with visited := node :: st.visited, stack := node :: st.stack }
      let st2 := ((lookupA node adj).getD []).foldl
        (fun s neighbor => dfs adj fuel neighbor (path ++ [node]) s) st1
      { st2 with stack := st2.stack.erase node }

/-- DataValidator.detectCircularDependencies: depth-first search from every
node id not yet visited; at most the first 10 cycles found are returned. -/
def detectCircularDependencies (nodes : List RawNode) (links : List RawLink) :
    List (List (Option String)) :=
  let adj := adjOf links
  let fuel := nodes.length + 2 * links.length + 1
  let final := nodes.foldl
    (fun st n => if st.visited.contains n.id then st else dfs adj fuel n.id [] st)
    ⟨[], [], []⟩
  final.cycles.take 10

/-! ### Metrics (DataValidator.calculateMetrics) -/

/-- Object-key increment: a record keyed by the stringified type (undefined
becomes the key "undefined"), insertion-ordered. -/
def bumpA {α : Type} [DecidableEq α] (k : α) : List (α × Nat) → List (α × Nat)
  | [] => [(k, 1)]
  | (k', n) :: rest => if k' = k then (k', n + 1) :: rest else (k', n) :: bumpA k rest

/-- The connected-node set of calculateMetrics (no truthiness guard: even
undefined and empty sources/targets are added). -/
def connectedAll (ls : List RawLink) : List (Option String) :=
  ls.foldl (fun a l => l.target :: l.source :: a) []

/-- Math.round(nodeCount + avgConnections × 10 + circularDependencies × 5)
with avgConnections = linkCount/nodeCount when nodeCount > 0 and 0
otherwise, computed exactly over integers: for n > 0 the rounded value is
the floor of (n + 10l/n + 5c) + 1/2 = (2(n² + 10l + 5cn) + n) / 2n.  The
theorem complexityScoreInt_eq proves this equal to the jsRound of the
rational formula. -/
def complexityScoreInt (n l c : ℕ) : ℤ :=
  if 0 < n then ((2 * (n * n + 10 * l + 5 * c * n) + n) / (2 * n) : ℕ)
  else (5 * c : ℕ)

/-- calculateMetrics on the underlying sequences (after the optional
chaining has resolved nodes/links to arrays or to the empty list). -/
def calculateMetricsArr (ns : List RawNode) (ls : List RawLink) : ValidationMetrics :=
  let nodesByType := ns.foldl (fun m n => bumpA (optToJs n.type) m) []
  let linksByType := ls.foldl (fun m l => bumpA (optToJs l.type) m) []
  let connected := connectedAll ls
  let orphaned := (ns.filter (fun n => !(connected.contains n.id))).length
  let circular := (detectCircularDependencies ns ls).length
  { totalNodes := ns.length
    totalLinks := ls.length
    orphanedNodes := orphaned
    circularDependencies := circular
    nodesByType := nodesByType
    linksByType := linksByType
    complexityScore := complexityScoreInt ns.length ls.length circular }

/-- DataValidator.calculateMetrics on the raw datum: the optional-chained
forEach calls skip a nullish member but throw on a truthy non-array. -/
def calculateMetricsE (d : RawData) : Option ValidationMetrics :=
  match d.nodes with
  | .notArray => none
  | nf =>
    match d.links with
    | .notArray => none
    | lf => some (calculateMetricsArr nf.arrOrNil lf.arrOrNil)

/-! ### Stage 4: relationship analysis -/

/-- The connected-node set of validateRelationships (with the truthiness
guard on source and target). -/
def connectedTruthy (ls : List RawLink) : List String :=
  ls.foldl (fun a l =>
    let a1 := match l.source with
      | some s => if s ≠ "" then s :: a else a
      | none => a
    match l.target with
    | some t => if t ≠ "" then t :: a1 else a1
    | none => a1) []

def hasConn (connected : List String) : Option String → Bool
  | some s => connected.contains s
  | none => false

/-- DataValidator.validateRelationships: skipped when either member is
falsy; the unguarded forEach/filter throw on a truthy non-array. -/
def validateRelationships (d : RawData) : Except Unit (List VWarning) :=
  if d.nodes.truthy && d.links.truthy then
    match d.links with
    | .notArray => .error ()
    | .nullish => .ok []
    | .arr ls =>
      let connected := connectedTruthy ls
      match d.nodes with
      | .notArray => .error ()
      | .nullish => .ok []
      | .arr ns =>
        let orphanedNodes := ns.filter (fun n => !(hasConn connected n.id))
        let w1 : List VWarning :=
          if orphanedNodes.length > 0 then
            [{ code := "ORPHANED_NODES"
               message := "Found " ++ toString orphanedNodes.length ++
                 " isolated components with no connections"
               suggestion := some "Verify these components should be included"
               affected := some (.ids ((orphanedNodes.take 5).map (fun n => optToJs n.id))) }]
          else []
        let circularDeps := detectCircularDependencies ns ls
        let w2 : List VWarning :=
          if circularDeps.length > 0 then
            [{ code := "CIRCULAR_DEPENDENCIES"
               message := "Found " ++ toString circularDeps.length ++
                 " potential circular dependencies"
               suggestion := some "Review component relationships for cycles"
               affected := some (.paths ((circularDeps.take 3).map (fun c => c.map optToJs))) }]
          else []
        .ok (w1 ++ w2)
  else .ok []

/-! ### Stage 5: performance analysis -/

/-- Stable insertion of a counted entry into a descending-by-count list:
the entry lands after every earlier entry of greater or equal count. -/
def insertDesc {α : Type} (x : α × Nat) : List (α × Nat) → List (α × Nat)
  | [] => [x]
  | y :: ys => if y.2 < x.2 then x :: y :: ys else y :: insertDesc x ys

/-- The stable sort of Array.prototype.sort with comparator b[1] - a[1]:
descending by count, entries of equal count in their original order. -/
def sortByCountDesc {α : Type} (l : List (α × Nat)) : List (α × Nat) :=
  l.foldl (fun acc x => insertDesc x acc) []

/-- DataValidator.validatePerformance: recomputes the metrics (throwing on
truthy non-array members), then counts per-node connections over the
unguarded links array (throwing when links is not an array). -/
def validatePerformance (d : RawData) : Except Unit (List VWarning) :=
  match calculateMetricsE d with
  | none => .error ()
  | some m =>
    let w1 : List VWarning :=
      if m.complexityScore > 100 then
        [{ code := "HIGH_COMPLEXITY"
           message := "High system complexity score: " ++ toString m.complexityScore
           suggestion := some "Consider breaking down into smaller subsystems" }]
      else []
    match d.links with
    | .arr ls =>
      let counts := ls.foldl (fun cc l => bumpA l.target (bumpA l.source cc)) []
      let highlyConnected := sortByCountDesc (counts.filter (fun p => p.2 > 10))
      let w2 : List VWarning :=
        if highlyConnected.length > 0 then
          [{ code := "HIGHLY_CONNECTED_NODES"
             message := "Found " ++ toString highlyConnected.length ++
               " highly connected components"
             suggestion := some "Review if these components have too many responsibilities"
             affected := some (.ids ((highlyConnected.take 3).map (fun p => optToJs p.1))) }]
        else []
      .ok (w1 ++ w2)
    | _ => .error ()

/-! ### The validate orchestration -/

/-- The try block of DataValidator.validate: the five stages in order, each
either contributing findings or throwing; a throw carries the errors and
warnings accumulated so far (the outer arrays the catch block reuses). -/
def validateBody (input : RawInput) :
    Except (List VError × List VWarning) (List VError × List VWarning × ValidationMetrics) :=
  let errs0 := validateBasicStructure input
  match input with
  | .nullData => .error (errs0, [])
  | .obj d =>
    let nodeAcc := validateNodes d.nodes
    let errs1 := errs0 ++ nodeAcc.1
    let warns1 := nodeAcc.2
    match validateLinks d.links d.nodes with
    | .error () => .error (errs1, warns1)
    | .ok linkAcc =>
      let errs2 := errs1 ++ linkAcc.1
      let warns2 := warns1 ++ linkAcc.2
      match validateRelationships d with
      | .error () => .error (errs2, warns2)
      | .ok warnsR =>
        let warns3 := warns2 ++ warnsR
        match validatePerformance d with
        | .error () => .error (errs2, warns3)
        | .ok warnsP =>
          let warns4 := warns3 ++ warnsP
          match calculateMetricsE d with
          | none => .error (errs2, warns4)
          | some m => .ok (errs2, warns4, m)

/-- The VALIDATION_FAILED record pushed by the catch block. -/
def validationFailedError : VError :=
  { code := "VALIDATION_FAILED"
    message := "Internal validation error occurred"
    severity := .error }

/-- DataValidator.validate: total; any fault inside the try block lands in
the catch, which appends the single VALIDATION_FAILED record and resets the
metrics. -/
def validate (input : RawInput) : ValidationResult :=
  match validateBody input with
  | .ok acc =>
    { isValid := acc.1.isEmpty
      errors := acc.1
      warnings := acc.2.1
      metrics := acc.2.2 }
  | .error acc =>
    { isValid := false
      errors := acc.1 ++ [validationFailedError]
      warnings := acc.2
      metrics := getEmptyMetrics }

/-! ### Bridging ingestion output into the validator input universe -/

def nodeToRaw (n : ComponentNode) : RawNode :=
  { id := some n.id, name := some n.name, type := some n.type }

def linkToRaw (l : ComponentLink) : RawLink :=
  { source := some l.source, target := some l.target, type := some l.type }

def toRawInput (d : ComponentData) : RawInput :=
  .obj { nodes := .arr (d.nodes.map nodeToRaw), links := .arr (d.links.map linkToRaw) }

/-- Modelled from the spec: the complexity-score formula as section 4.6
words it, round(nodeCount + (linkCount / max(nodeCount, 1)) × 10 +
circularDependencies × 5), for comparison against the code. -/
def specComplexityScore (nodeCount linkCount circularDependencies : Nat) : ℤ :=
  jsRound ((nodeCount : ℚ) + ((linkCount : ℚ) / ((max nodeCount 1 : ℕ) : ℚ)) * 10 +
    (circularDependencies : ℚ) * 5)

/-- The referential-integrity invariant of an ingestion state. -/
def RefIntact (st : IngestState) : Prop :=
  ∀ l ∈ st.links, l.source ∈ st.nodes.map (fun m => m.id) ∧
    l.target ∈ st.nodes.map (fun m => m.id)

/-- The color-map invariant: the entry at position i (the i-th distinct
key, in first-seen order) carries the hue of golden-angle step i. -/
def HueInv (m : List (String × HslColor)) : Prop :=
  ∀ (i : Nat) (h : i < m.length),
    (m.get ⟨i, h⟩).2 = { hueMilli := hueMilliAt i, saturation := 70, lightness := 50 }

/-! ### Concrete inputs used by the example-level theorems -/

/-- The single row of testable property 2 of the spec. -/
def rowCheckout : Row :=
  { solutions := "Checkout", solutionInput := "Cart", solutionOutput := "Receipt" }

def checkoutGraph : ComponentData := transformToComponentData [rowCheckout] "components.xlsx"

/-- A well-formed node used by several validator examples. -/
def rawNodeA : RawNode := { id := some "a", name := some "a", type := some "service" }

def rawNodeB : RawNode := { id := some "b", name := some "b", type := some "service" }

/-- A link between two ids that are not node ids: it contributes to the
link count but neither to connectivity of the example nodes nor to cycles
(the search starts only from node ids). -/
def ghostLink : RawLink := { source := some "g", target := some "h", type := some "dependency" }

/-- Two rows whose High Level Input cells differ only by surrounding
whitespace, so they trim to the same category label. -/
def rowHliB1 : Row := { solutions := "S", solutionInput := "I", highLevelInput := "B" }

def rowHliB2 : Row := { solutions := "S", solutionInput := "J", highLevelInput := " B" }

def hliGraph : ComponentData := transformToComponentData [rowHliB1, rowHliB2] "f.xlsx"

/-- A self-loop on an id that is not among the node ids. -/
def selfLoopX : RawLink := { source := some "x", target := some "x", type := some "dependency" }

def selfLoopGraph : RawInput := .obj { nodes := .arr [rawNodeA], links := .arr [selfLoopX] }

/-- Links whose composite keys collide although the directed edges differ:
the key of the edge a → b->a->b equals the key of the self-loop on a->b. -/
def c10Links : List RawLink :=
  [{ source := some "a", target := some "b->a->b", type := some "dependency" },
   { source := some "a->b", target := some "a->b", type := some "dependency" }]

def c10Graph : RawInput := .obj
  { nodes := .arr
      [{ id := some "a", name := some "a", type := some "service" },
       { id := some "a->b", name := some "ab", type := some "service" },
       { id := some "b->a->b", name := some "bab", type := some "service" }]
    links := .arr c10Links }

/-! ## Theorems -/

/-- C1: the single row Solutions=Checkout, Solution Input=Cart, Solution
Output=Receipt yields exactly the three nodes checkout (service), cart
(interface), receipt (interface) and the two dependency links cart→checkout
then checkout→receipt, and validate on this graph returns isValid true with
no errors, totalNodes 3, totalLinks 2 and orphanedNodes 0. -/
theorem c1_checkout_row_pipeline :
    checkoutGraph.nodes.map (fun n => (n.id, n.type)) =
      [("checkout", "service"), ("cart", "interface"), ("receipt", "interface")] ∧
    checkoutGraph.links.map (fun l => (l.source, l.target, l.type)) =
      [("cart", "checkout", "dependency"), ("checkout", "receipt", "dependency")] ∧
    (validate (toRawInput checkoutGraph)).isValid = true ∧
    (validate (toRawInput checkoutGraph)).errors = [] ∧
    (validate (toRawInput checkoutGraph)).metrics.totalNodes = 3 ∧
    (validate (toRawInput checkoutGraph)).metrics.totalLinks = 2 ∧
    (validate (toRawInput checkoutGraph)).metrics.orphanedNodes = 0 := by
  decide

/-- C3 counterexample: two graphs with equal link counts (one link between
ids that are not nodes) and equal cycle counts (zero) but node counts 1 and
2; the larger graph scores strictly lower (7 against 11), refuting
monotonicity of the complexity score in the node count. -/
theorem c3_node_count_cex :
    (calculateMetricsArr [rawNodeA] [ghostLink]).totalNodes <
      (calculateMetricsArr [rawNodeA, rawNodeB] [ghostLink]).totalNodes ∧
    (calculateMetricsArr [rawNodeA] [ghostLink]).totalLinks =
      (calculateMetricsArr [rawNodeA, rawNodeB] [ghostLink]).totalLinks ∧
    (calculateMetricsArr [rawNodeA] [ghostLink]).circularDependencies =
      (calculateMetricsArr [rawNodeA, rawNodeB] [ghostLink]).circularDependencies ∧
    (calculateMetricsArr [rawNodeA, rawNodeB] [ghostLink]).complexityScore <
      (calculateMetricsArr [rawNodeA] [ghostLink]).complexityScore := by
  decide

/-- C4 counterexample: on the graph with no nodes and one link the code
computes complexityScore 0 (the average-connections term is defined as 0
when the node count is 0), while the formula of the claim rounds
0 + (1 / max(0,1)) × 10 + 0 to 10. -/
theorem c4_zero_nodes_cex :
    (calculateMetricsArr [] [ghostLink]).totalNodes = 0 ∧
    (calculateMetricsArr [] [ghostLink]).totalLinks = 1 ∧
    (calculateMetricsArr [] [ghostLink]).complexityScore ≠
      specComplexityScore (calculateMetricsArr [] [ghostLink]).totalNodes
        (calculateMetricsArr [] [ghostLink]).totalLinks
        (calculateMetricsArr [] [ghostLink]).circularDependencies := by
  have hn : (calculateMetricsArr [] [ghostLink]).totalNodes = 0 := by decide
  have hl : (calculateMetricsArr [] [ghostLink]).totalLinks = 1 := by decide
  have hc : (calculateMetricsArr [] [ghostLink]).circularDependencies = 0 := by decide
  have hs : (calculateMetricsArr [] [ghostLink]).complexityScore = 0 := by decide
  have hspec : specComplexityScore 0 1 0 = 10 := by
    unfold specComplexityScore jsRound
    rw [Int.floor_eq_iff]
    norm_num
  refine ⟨hn, hl, ?_⟩
  rw [hn, hl, hc, hs, hspec]
  decide

/-- C5 counterexample: two ingested input links carry the same
metadata.category (the trimmed label B) but different colors, because the
color assigner is keyed by the raw untrimmed cell; hence the color is not
the color assigned to the trimmed category. -/
theorem c5_trimmed_category_cex :
    hliGraph.links.map (fun l => (l.label, l.metadata.category)) =
      [("provides input to", "B"), ("provides input to", "B")] ∧
    hliGraph.links.map (fun l => l.metadata.color.hueMilli) =
      [hueMilliAt 0, hueMilliAt 1] ∧
    hueMilliAt 0 ≠ hueMilliAt 1 := by
  decide

/-- C6 counterexample: the row whose Solutions cell is the non-blank string
of three exclamation marks passes the only guard the ingester applies (the
trimmed cell is non-blank), yet sanitizing it yields the empty identifier,
and a node with the empty id is inserted into the produced graph. -/
theorem c6_empty_id_cex :
    jsTrim "!!!" ≠ "" ∧
    (transformToComponentData [{ solutions := "!!!" }] "f.xlsx").nodes.map
      (fun n => n.id) = [""] := by
  decide

/-- C7 counterexample: a self-loop on an id that is not a node id receives
two errors (INVALID_LINK_SOURCE and INVALID_LINK_TARGET, both carrying its
link index) and forces isValid false, refuting the claim that a self-loop
link never produces an error and never affects validity. -/
theorem c7_self_loop_cex :
    selfLoopX.source = selfLoopX.target ∧
    (validate selfLoopGraph).errors.map (fun e => (e.code, e.linkIndex)) =
      [("INVALID_LINK_SOURCE", some 0), ("INVALID_LINK_TARGET", some 0)] ∧
    (validate selfLoopGraph).isValid = false := by
  decide

/-! ### Character-level lemmas for the sanitizer -/

theorem dropWhile_eq_self_of_none {p : Char → Bool} {l : List Char}
    (h : ∀ c ∈ l, p c = false) : l.dropWhile p = l := by
  cases l with
  | nil => rfl
  | cons c t => simp [List.dropWhile_cons, h c (by simp)]

theorem trimList_eq_self {l : List Char} (h : ∀ c ∈ l, jsWS c = false) :
    trimList l = l := by
  unfold trimList
  rw [dropWhile_eq_self_of_none h, dropWhile_eq_self_of_none, List.reverse_reverse]
  intro c hc
  exact h c (by simpa using hc)

theorem mem_collapseWS :
    ∀ l : List Char, ∀ c ∈ collapseWS l, c = '_' ∨ (c ∈ l ∧ jsWS c = false) := by
  intro l
  induction l with
  | nil => simp [collapseWS]
  | cons a t ih =>
    cases t with
    | nil =>
      intro c hc
      by_cases ha : jsWS a
      · simp [collapseWS, ha] at hc
        exact Or.inl hc
      · simp [collapseWS, ha] at hc
        subst hc
        exact Or.inr ⟨by simp, by simpa using ha⟩
    | cons b r =>
      intro c hc
      by_cases ha : jsWS a
      · by_cases hb : jsWS b
        · rw [show collapseWS (a :: b :: r) = collapseWS (b :: r) by
            simp [collapseWS, ha, hb]] at hc
          rcases ih c hc with h1 | ⟨h2, h3⟩
          · exact Or.inl h1
          · exact Or.inr ⟨List.mem_cons_of_mem _ h2, h3⟩
        · rw [show collapseWS (a :: b :: r) = '_' :: collapseWS (b :: r) by
            simp [collapseWS, ha, hb]] at hc
          rcases List.mem_cons.mp hc with h1 | h1
          · exact Or.inl h1
          · rcases ih c h1 with h2 | ⟨h3, h4⟩
            · exact Or.inl h2
            · exact Or.inr ⟨List.mem_cons_of_mem _ h3, h4⟩
      · rw [show collapseWS (a :: b :: r) = a :: collapseWS (b :: r) by
          simp [collapseWS, ha]] at hc
        rcases List.mem_cons.mp hc with h1 | h1
        · subst h1
          exact Or.inr ⟨by simp, by simpa using ha⟩
        · rcases ih c h1 with h2 | ⟨h3, h4⟩
          · exact Or.inl h2
          · exact Or.inr ⟨List.mem_cons_of_mem _ h3, h4⟩

theorem collapseWS_eq_self {l : List Char} (h : ∀ c ∈ l, jsWS c = false) :
    collapseWS l = l := by
  induction l with
  | nil => rfl
  | cons a t ih =>
    cases t with
    | nil => simp [collapseWS, h a (by simp)]
    | cons b r =>
      rw [show collapseWS (a :: b :: r) = a :: collapseWS (b :: r) by
        simp [collapseWS, h a (by simp)]]
      rw [ih (fun c hc => h c (List.mem_cons_of_mem _ hc))]

theorem goodChar_asciiLower_of_keep {c : Char} (hk : keepChar c = true)
    (hw : jsWS c = false) : goodChar (asciiLower c) = true := by
  have hup : ∀ d ∈ upperChars, goodChar (asciiLower d) = true := by decide
  have hlo : ∀ d ∈ lowerChars, goodChar (asciiLower d) = true := by decide
  have hdg : ∀ d ∈ digitChars, goodChar (asciiLower d) = true := by decide
  unfold keepChar at hk
  simp only [Bool.or_eq_true] at hk
  rcases hk with ((((h | h) | h) | h) | h) | h
  · exact hup c (by simpa using h)
  · exact hlo c (by simpa using h)
  · exact hdg c (by simpa using h)
  · rw [h] at hw
    cases hw
  · have : c = '-' := by simpa using h
    subst this
    decide
  · have : c = '_' := by simpa using h
    subst this
    decide

theorem goodChar_no_ws {c : Char} (h : goodChar c = true) : jsWS c = false := by
  have hlo : ∀ d ∈ lowerChars, jsWS d = false := by decide
  have hdg : ∀ d ∈ digitChars, jsWS d = false := by decide
  unfold goodChar at h
  simp only [Bool.or_eq_true] at h
  rcases h with ((h | h) | h) | h
  · exact hlo c (by simpa using h)
  · exact hdg c (by simpa using h)
  · have : c = '-' := by simpa using h
    subst this
    decide
  · have : c = '_' := by simpa using h
    subst this
    decide

theorem goodChar_keep {c : Char} (h : goodChar c = true) : keepChar c = true := by
  have hlo : ∀ d ∈ lowerChars, keepChar d = true := by decide
  have hdg : ∀ d ∈ digitChars, keepChar d = true := by decide
  unfold goodChar at h
  simp only [Bool.or_eq_true] at h
  rcases h with ((h | h) | h) | h
  · exact hlo c (by simpa using h)
  · exact hdg c (by simpa using h)
  · have : c = '-' := by simpa using h
    subst this
    decide
  · have : c = '_' := by simpa using h
    subst this
    decide

theorem asciiLower_eq_self_of_good {c : Char} (h : goodChar c = true) :
    asciiLower c = c := by
  have hlo : ∀ d ∈ lowerChars, upperChars.contains d = false := by decide
  have hdg : ∀ d ∈ digitChars, upperChars.contains d = false := by decide
  have hnc : upperChars.contains c = false := by
    unfold goodChar at h
    simp only [Bool.or_eq_true] at h
    rcases h with ((h | h) | h) | h
    · exact hlo c (by simpa using h)
    · exact hdg c (by simpa using h)
    · have : c = '-' := by simpa using h
      subst this
      decide
    · have : c = '_' := by simpa using h
      subst this
      decide
  have hmem : c ∉ upperChars := by simpa using hnc
  simp [asciiLower, hnc, hmem]

theorem sanitizeList_good (l : List Char) :
    ∀ c ∈ sanitizeList l, goodChar c = true := by
  intro c hc
  unfold sanitizeList at hc
  rcases List.mem_map.mp hc with ⟨d, hd, rfl⟩
  rcases mem_collapseWS _ d hd with h1 | ⟨h2, h3⟩
  · subst h1
    decide
  · exact goodChar_asciiLower_of_keep (List.mem_filter.mp h2).2 h3

theorem sanitizeList_idem (l : List Char) :
    sanitizeList (sanitizeList l) = sanitizeList l := by
  have hg := sanitizeList_good l
  have h1 : trimList (sanitizeList l) = sanitizeList l :=
    trimList_eq_self (fun c hc => goodChar_no_ws (hg c hc))
  have h2 : (sanitizeList l).filter keepChar = sanitizeList l :=
    List.filter_eq_self.mpr (fun c hc => goodChar_keep (hg c hc))
  have h3 : collapseWS (sanitizeList l) = sanitizeList l :=
    collapseWS_eq_self (fun c hc => goodChar_no_ws (hg c hc))
  have h4 : (sanitizeList l).map asciiLower = sanitizeList l := by
    have := List.map_congr_left (l := sanitizeList l) (f := asciiLower) (g := id)
      (fun c hc => asciiLower_eq_self_of_good (hg c hc))
    simpa using this
  show (collapseWS ((trimList (sanitizeList l)).filter keepChar)).map asciiLower =
    sanitizeList l
  rw [h1, h2, h3, h4]

/-- C8: sanitize is idempotent, and its output contains only lowercase
ASCII letters, digits, hyphens and underscores (it trims surrounding
whitespace, strips every character outside the kept class, collapses
whitespace runs into single underscores and lowercases). -/
theorem c8_sanitize_idempotent (s : String) :
    sanitizeId (sanitizeId s) = sanitizeId s ∧
    ∀ c ∈ (sanitizeId s).toList, goodChar c = true := by
  constructor
  · show (⟨sanitizeList (sanitizeList s.toList)⟩ : String) = ⟨sanitizeList s.toList⟩
    rw [sanitizeList_idem]
  · intro c hc
    exact sanitizeList_good s.toList c hc

/-- C8 witness: the idempotence and alphabet facts evaluated at a concrete
string with whitespace, specials and uppercase. -/
theorem c8_sanitize_idempotent_witness :
    sanitizeId (sanitizeId "  Hello,   World-X_1! ") = sanitizeId "  Hello,   World-X_1! " ∧
    ∀ c ∈ (sanitizeId "  Hello,   World-X_1! ").toList, goodChar c = true :=
  c8_sanitize_idempotent "  Hello,   World-X_1! "

/-! ### Upsert and ingestion-state lemmas -/

theorem mem_upsertNode {ns : List ComponentNode} {n m : ComponentNode}
    (h : m ∈ upsertNode ns n) : m ∈ ns ∨ m = n := by
  unfold upsertNode at h
  split at h
  · rcases List.mem_map.mp h with ⟨x, hx, heq⟩
    by_cases hid : x.id = n.id
    · right
      rw [if_pos hid] at heq
      exact heq.symm
    · left
      rw [if_neg hid] at heq
      exact heq ▸ hx
  · rcases List.mem_append.mp h with h1 | h1
    · exact Or.inl h1
    · right
      simpa using h1

theorem id_mem_upsertNode (ns : List ComponentNode) (n : ComponentNode) :
    n.id ∈ (upsertNode ns n).map (fun m => m.id) := by
  unfold upsertNode
  split
  · rename_i hany
    rcases List.any_eq_true.mp hany with ⟨x, hx, hxid⟩
    exact List.mem_map.mpr ⟨n, List.mem_map.mpr ⟨x, hx, by simp [of_decide_eq_true hxid]⟩, rfl⟩
  · simp

theorem ids_sub_upsertNode {ns : List ComponentNode} {n : ComponentNode} {x : String}
    (h : x ∈ ns.map (fun m => m.id)) : x ∈ (upsertNode ns n).map (fun m => m.id) := by
  unfold upsertNode
  split
  · rcases List.mem_map.mp h with ⟨m, hm, rfl⟩
    by_cases hid : m.id = n.id
    · refine List.mem_map.mpr ⟨n, List.mem_map.mpr ⟨m, hm, by simp [hid]⟩, ?_⟩
      rw [hid]
    · exact List.mem_map.mpr ⟨m, List.mem_map.mpr ⟨m, hm, by simp [hid]⟩, rfl⟩
  · rcases List.mem_map.mp h with ⟨m, hm, rfl⟩
    exact List.mem_map.mpr ⟨m, List.mem_append.mpr (Or.inl hm), rfl⟩

theorem stepSolution_links (i : Nat) (r : Row) (st : IngestState) :
    (stepSolution i r st).links = st.links := by
  unfold stepSolution
  split <;> rfl

theorem stepSolution_colorMap (i : Nat) (r : Row) (st : IngestState) :
    (stepSolution i r st).colorMap = st.colorMap := by
  unfold stepSolution
  split <;> rfl

theorem stepSolution_ids_mono {i : Nat} {r : Row} {st : IngestState} {x : String}
    (h : x ∈ st.nodes.map (fun m => m.id)) :
    x ∈ (stepSolution i r st).nodes.map (fun m => m.id) := by
  unfold stepSolution
  split
  · exact ids_sub_upsertNode h
  · exact h

theorem stepInput_ids_mono {i : Nat} {r : Row} {st : IngestState} {x : String}
    (h : x ∈ st.nodes.map (fun m => m.id)) :
    x ∈ (stepInput i r st).nodes.map (fun m => m.id) := by
  unfold stepInput
  split
  · exact ids_sub_upsertNode h
  · exact h

theorem stepOutput_ids_mono {i : Nat} {r : Row} {st : IngestState} {x : String}
    (h : x ∈ st.nodes.map (fun m => m.id)) :
    x ∈ (stepOutput i r st).nodes.map (fun m => m.id) := by
  unfold stepOutput
  split
  · exact ids_sub_upsertNode h
  · exact h

theorem stepSolution_sol_mem (i : Nat) (r : Row) (st : IngestState)
    (hg : jsTrim r.solutions ≠ "") :
    sanitizeId r.solutions ∈ (stepSolution i r st).nodes.map (fun m => m.id) := by
  unfold stepSolution
  rw [if_pos hg]
  exact id_mem_upsertNode _ _

theorem stepInput_refIntact {i : Nat} {r : Row} {st : IngestState}
    (h : RefIntact st)
    (hsol : jsTrim r.solutions ≠ "" →
      sanitizeId r.solutions ∈ st.nodes.map (fun m => m.id)) :
    RefIntact (stepInput i r st) := by
  unfold stepInput
  split
  · rename_i hg
    intro l hl
    rcases List.mem_append.mp hl with h1 | h1
    · rcases h l h1 with ⟨hs, ht⟩
      exact ⟨ids_sub_upsertNode hs, ids_sub_upsertNode ht⟩
    · have hleq := List.mem_singleton.mp h1
      subst hleq
      exact ⟨id_mem_upsertNode _ _, ids_sub_upsertNode (hsol hg.2)⟩
  · exact h

theorem stepOutput_refIntact {i : Nat} {r : Row} {st : IngestState}
    (h : RefIntact st)
    (hsol : jsTrim r.solutions ≠ "" →
      sanitizeId r.solutions ∈ st.nodes.map (fun m => m.id)) :
    RefIntact (stepOutput i r st) := by
  unfold stepOutput
  split
  · rename_i hg
    intro l hl
    rcases List.mem_append.mp hl with h1 | h1
    · rcases h l h1 with ⟨hs, ht⟩
      exact ⟨ids_sub_upsertNode hs, ids_sub_upsertNode ht⟩
    · have hleq := List.mem_singleton.mp h1
      subst hleq
      exact ⟨ids_sub_upsertNode (hsol hg.2), id_mem_upsertNode _ _⟩
  · exact h

theorem processRow_refIntact (i : Nat) (r : Row) (st : IngestState)
    (h : RefIntact st) : RefIntact (processRow i r st) := by
  have h1 : RefIntact (stepSolution i r st) := by
    intro l hl
    rw [stepSolution_links] at hl
    rcases h l hl with ⟨hs, ht⟩
    exact ⟨stepSolution_ids_mono hs, stepSolution_ids_mono ht⟩
  have hsol1 : jsTrim r.solutions ≠ "" →
      sanitizeId r.solutions ∈ (stepSolution i r st).nodes.map (fun m => m.id) :=
    fun hg => stepSolution_sol_mem i r st hg
  have h2 : RefIntact (stepInput i r (stepSolution i r st)) :=
    stepInput_refIntact h1 hsol1
  have hsol2 : jsTrim r.solutions ≠ "" →
      sanitizeId r.solutions ∈
        (stepInput i r (stepSolution i r st)).nodes.map (fun m => m.id) :=
    fun hg => stepInput_ids_mono (hsol1 hg)
  exact stepOutput_refIntact h2 hsol2

theorem ingestRows_refIntact :
    ∀ (rs : List Row) (k : Nat) (st : IngestState),
      RefIntact st → RefIntact (ingestRows k rs st) := by
  intro rs
  induction rs with
  | nil => exact fun k st h => h
  | cons r t ih => exact fun k st h => ih _ _ (processRow_refIntact k r st h)

/-- C9: every link the ingester produces references existing nodes: the
source and the target of every link of the produced graph occur as node
ids (the ingester itself upholds the invariant the validator only checks). -/
theorem c9_referential_integrity (rows : List Row) (fileName : String) :
    ∀ l ∈ (transformToComponentData rows fileName).links,
      (∃ n ∈ (transformToComponentData rows fileName).nodes, n.id = l.source) ∧
      (∃ n ∈ (transformToComponentData rows fileName).nodes, n.id = l.target) := by
  intro l hl
  have hinv : RefIntact (ingestRows 0 rows emptyIngestState) :=
    ingestRows_refIntact rows 0 emptyIngestState (by intro l hl; simp [emptyIngestState] at hl)
  rcases hinv l hl with ⟨hs, ht⟩
  constructor
  · rcases List.mem_map.mp hs with ⟨n, hn, hid⟩
    exact ⟨n, hn, hid⟩
  · rcases List.mem_map.mp ht with ⟨n, hn, hid⟩
    exact ⟨n, hn, hid⟩

/-- C9 witness: the theorem applied to a one-row graph and its input link. -/
theorem c9_referential_integrity_witness :
    (∃ n ∈ (transformToComponentData [{ solutions := "S", solutionInput := "I" }] "f").nodes,
        n.id = ("i" : String)) ∧
    (∃ n ∈ (transformToComponentData [{ solutions := "S", solutionInput := "I" }] "f").nodes,
        n.id = ("s" : String)) :=
  c9_referential_integrity [{ solutions := "S", solutionInput := "I" }] "f"
    { source := "i"
      target := "s"
      type := "dependency"
      label := "provides input to"
      metadata := { color := { hueMilli := 0, saturation := 70, lightness := 50 }
                    category := "Input" } }
    (by decide)

/-! ### Empty-identifier behaviour of the ingester (C6) -/

theorem stepSolution_no_empty_id {i : Nat} {r : Row} {st : IngestState}
    (hc : jsTrim r.solutions ≠ "" → sanitizeId r.solutions ≠ "")
    (h : ∀ n ∈ st.nodes, n.id ≠ "") :
    ∀ n ∈ (stepSolution i r st).nodes, n.id ≠ "" := by
  unfold stepSolution
  split
  · rename_i hg
    intro n hn
    rcases mem_upsertNode hn with h1 | h1
    · exact h n h1
    · rw [h1]
      exact hc hg
  · exact h

theorem stepInput_no_empty_id {i : Nat} {r : Row} {st : IngestState}
    (hc : jsTrim r.solutionInput ≠ "" → sanitizeId r.solutionInput ≠ "")
    (h : ∀ n ∈ st.nodes, n.id ≠ "") :
    ∀ n ∈ (stepInput i r st).nodes, n.id ≠ "" := by
  unfold stepInput
  split
  · rename_i hg
    intro n hn
    rcases mem_upsertNode hn with h1 | h1
    · exact h n h1
    · rw [h1]
      exact hc hg.1
  · exact h

theorem stepOutput_no_empty_id {i : Nat} {r : Row} {st : IngestState}
    (hc : jsTrim r.solutionOutput ≠ "" → sanitizeId r.solutionOutput ≠ "")
    (h : ∀ n ∈ st.nodes, n.id ≠ "") :
    ∀ n ∈ (stepOutput i r st).nodes, n.id ≠ "" := by
  unfold stepOutput
  split
  · rename_i hg
    intro n hn
    rcases mem_upsertNode hn with h1 | h1
    · exact h n h1
    · rw [h1]
      exact hc hg.1
  · exact h

theorem ingestRows_no_empty_id :
    ∀ (rs : List Row) (k : Nat) (st : IngestState),
      (∀ r ∈ rs,
        (jsTrim r.solutions ≠ "" → sanitizeId r.solutions ≠ "") ∧
        (jsTrim r.solutionInput ≠ "" → sanitizeId r.solutionInput ≠ "") ∧
        (jsTrim r.solutionOutput ≠ "" → sanitizeId r.solutionOutput ≠ "")) →
      (∀ n ∈ st.nodes, n.id ≠ "") →
      ∀ n ∈ (ingestRows k rs st).nodes, n.id ≠ "" := by
  intro rs
  induction rs with
  | nil => exact fun k st _ h => h
  | cons r t ih =>
    intro k st hc h
    have hr := hc r (by simp)
    exact ih _ _ (fun x hx => hc x (List.mem_cons_of_mem _ hx))
      (stepOutput_no_empty_id hr.2.2 (stepInput_no_empty_id hr.2.1
        (stepSolution_no_empty_id hr.1 h)))

/-- C6 amended: the ingester guards only that the raw cell is non-blank
after trimming, not that the sanitized identifier is non-empty; the no
empty-id invariant therefore holds exactly when every non-blank cell of the
input sanitizes to a non-empty identifier (and fails otherwise, see the
counterexample). -/
theorem c6_no_empty_id_conditional (rows : List Row) (fileName : String)
    (hc : ∀ r ∈ rows,
      (jsTrim r.solutions ≠ "" → sanitizeId r.solutions ≠ "") ∧
      (jsTrim r.solutionInput ≠ "" → sanitizeId r.solutionInput ≠ "") ∧
      (jsTrim r.solutionOutput ≠ "" → sanitizeId r.solutionOutput ≠ "")) :
    ∀ n ∈ (transformToComponentData rows fileName).nodes, n.id ≠ "" := by
  intro n hn
  exact ingestRows_no_empty_id rows 0 emptyIngestState hc
    (by intro x hx; simp [emptyIngestState] at hx) n hn

/-- C6 witness: the conditional invariant applied to the Checkout row and
its checkout node. -/
theorem c6_no_empty_id_conditional_witness : ("checkout" : String) ≠ "" :=
  c6_no_empty_id_conditional [rowCheckout] "components.xlsx" (by decide)
    { id := "checkout"
      name := "Checkout"
      type := "service"
      description := "Component from row 1"
      metadata := { rowIndex := 1, highLevelInput := some "", highLevelOutput := some "" } }
    (by decide)

/-- C10 counterexample: the second link is a self-loop on the non-empty id
a->b and is the first occurrence of that directed edge, yet no
BIDIRECTIONAL_LINK warning is emitted at all: the composite key of the
first (different) link collides with the key of the self-loop, so the
self-loop is flagged as a duplicate instead. -/
theorem c10_key_collision_cex :
    c10Links.map (fun l => (l.source, l.target)) =
      [(some "a", some "b->a->b"), (some "a->b", some "a->b")] ∧
    (validate c10Graph).warnings.countP
      (fun w => w.code == "BIDIRECTIONAL_LINK") = 0 ∧
    (validate c10Graph).warnings.countP
      (fun w => w.code == "DUPLICATE_LINK" && w.linkIndex == some 1) = 1 := by
  decide

/-! ### Per-link behaviour on self-loops (C7, C10) -/

/-- C7 amended: a self-loop link whose endpoint is a non-empty id naming an
existing node never produces an error from the per-link checks (so it
cannot affect isValid), and the self-reference check records exactly one
SELF_REFERENCE warning for it; errors on self-loops arise only from
missing or dangling endpoints. -/
theorem c7_self_loop_valid_endpoint (index : Nat) (nodeIds linkSet : List String)
    (s : String) (ty : Option String) (hs : s ≠ "") (hmem : s ∈ nodeIds) :
    (validateLink { source := some s, target := some s, type := ty }
      index nodeIds linkSet).1 = [] ∧
    (validateLink { source := some s, target := some s, type := ty }
      index nodeIds linkSet).2.1.countP
      (fun w => w.code == "SELF_REFERENCE") = 1 := by
  have hT : optTruthy (some s) = true := by simp [optTruthy, hs]
  constructor
  · simp [validateLink, hT, hs, hmem]
  · by_cases hdup : (s ++ "->" ++ s) ∈ linkSet
    · cases ty with
      | none => simp [validateLink, hT, hs, hmem, hdup]
      | some t =>
        by_cases ht : t ≠ "" ∧ t ∉ validLinkTypes
        · simp [validateLink, hT, hs, hmem, hdup, ht]
        · simp [validateLink, hT, hs, hmem, hdup, ht]
    · cases ty with
      | none => simp [validateLink, hT, hs, hmem, hdup]
      | some t =>
        by_cases ht : t ≠ "" ∧ t ∉ validLinkTypes
        · simp [validateLink, hT, hs, hmem, hdup, ht]
        · simp [validateLink, hT, hs, hmem, hdup, ht]

/-- C7 witness: the amended self-loop property at a concrete link whose
endpoint x is a node id. -/
theorem c7_self_loop_valid_endpoint_witness :
    (validateLink { source := some "x", target := some "x", type := some "dependency" }
      0 ["x"] []).1 = [] ∧
    (validateLink { source := some "x", target := some "x", type := some "dependency" }
      0 ["x"] []).2.1.countP (fun w => w.code == "SELF_REFERENCE") = 1 :=
  c7_self_loop_valid_endpoint 0 ["x"] [] "x" (some "dependency")
    (by decide) (by decide)

/-- C10 amended: a self-loop link with non-empty endpoints whose composite
key source ++ -> ++ target has not been produced by any earlier link (in
particular, the first occurrence of the directed edge when no distinct
earlier link shares the key) receives exactly one BIDIRECTIONAL_LINK
warning: its key is inserted first and its reverse key coincides with it. -/
theorem c10_self_loop_bidi_fresh_key (index : Nat) (nodeIds linkSet : List String)
    (s : String) (ty : Option String) (hs : s ≠ "")
    (hfresh : (s ++ "->" ++ s) ∉ linkSet) :
    (validateLink { source := some s, target := some s, type := ty }
      index nodeIds linkSet).2.1.countP
      (fun w => w.code == "BIDIRECTIONAL_LINK") = 1 := by
  have hT : optTruthy (some s) = true := by simp [optTruthy, hs]
  by_cases hmem : s ∈ nodeIds
  all_goals
    cases ty with
    | none => simp [validateLink, hT, hs, hmem, hfresh]
    | some t =>
      by_cases ht : t ≠ "" ∧ t ∉ validLinkTypes
      · simp [validateLink, hT, hs, hmem, hfresh, ht]
      · simp [validateLink, hT, hs, hmem, hfresh, ht]

/-- C10 witness: the amended property at a concrete fresh self-loop. -/
theorem c10_self_loop_bidi_fresh_key_witness :
    (validateLink { source := some "x", target := some "x", type := some "dependency" }
      0 ["x"] []).2.1.countP (fun w => w.code == "BIDIRECTIONAL_LINK") = 1 :=
  c10_self_loop_bidi_fresh_key 0 ["x"] [] "x" (some "dependency")
    (by decide) (by decide)

/-! ### The complexity score: integer form against the rounded formula -/

theorem intFloor_natCast_div (a b : ℕ) : ⌊(a : ℚ) / (b : ℚ)⌋ = ((a / b : ℕ) : ℤ) := by
  have h0 : (0 : ℚ) ≤ (a : ℚ) / (b : ℚ) :=
    div_nonneg (Nat.cast_nonneg a) (Nat.cast_nonneg b)
  rw [← Int.natCast_floor_eq_floor h0, Nat.floor_div_eq_div]

theorem floor_half : ⌊(1 / 2 : ℚ)⌋ = 0 := by
  rw [Int.floor_eq_zero_iff]
  constructor
  · norm_num
  · norm_num

/-- The integer complexity score is exactly the Math.round of the rational
formula nodeCount + avgConnections × 10 + circularDependencies × 5 that the
source computes. -/
theorem complexityScoreInt_eq (n l c : ℕ) :
    complexityScoreInt n l c =
      jsRound ((n : ℚ) + (if 0 < n then (l : ℚ) / (n : ℚ) else 0) * 10 + (c : ℚ) * 5) := by
  unfold complexityScoreInt jsRound
  by_cases hn : 0 < n
  · rw [if_pos hn, if_pos hn]
    have hne : (n : ℚ) ≠ 0 := Nat.cast_ne_zero.mpr hn.ne'
    have hq : (n : ℚ) + (l : ℚ) / (n : ℚ) * 10 + (c : ℚ) * 5 + 1 / 2 =
        ((2 * (n * n + 10 * l + 5 * c * n) + n : ℕ) : ℚ) / ((2 * n : ℕ) : ℚ) := by
      push_cast
      field_simp
      ring
    rw [hq, intFloor_natCast_div]
  · rw [if_neg hn, if_neg hn]
    have h0 : n = 0 := Nat.eq_zero_of_not_pos hn
    subst h0
    rw [show ((0 : ℕ) : ℚ) + 0 * 10 + (c : ℚ) * 5 + 1 / 2 = 1 / 2 + ((5 * c : ℕ) : ℚ) by
      push_cast
      ring]
    rw [Int.floor_add_nat, floor_half, zero_add]

theorem complexityScoreInt_mono (n c : ℕ) {l₁ l₂ : ℕ} (h : l₁ ≤ l₂) :
    complexityScoreInt n l₁ c ≤ complexityScoreInt n l₂ c := by
  unfold complexityScoreInt
  by_cases hn : 0 < n
  · rw [if_pos hn, if_pos hn]
    apply Int.ofNat_le.mpr
    apply Nat.div_le_div_right
    omega
  · rw [if_neg hn, if_neg hn]

/-- C3 amended: with the node count and the cycle count held equal, the
complexity score is monotone non-decreasing in the link count; it is not
monotone in the node count (see the counterexample: a larger node count can
shrink the average-connections term by more than the node term grows). -/
theorem c3_link_monotonicity (ns₁ : List RawNode) (ls₁ : List RawLink)
    (ns₂ : List RawNode) (ls₂ : List RawLink)
    (hn : (calculateMetricsArr ns₁ ls₁).totalNodes =
      (calculateMetricsArr ns₂ ls₂).totalNodes)
    (hc : (calculateMetricsArr ns₁ ls₁).circularDependencies =
      (calculateMetricsArr ns₂ ls₂).circularDependencies)
    (hl : (calculateMetricsArr ns₁ ls₁).totalLinks ≤
      (calculateMetricsArr ns₂ ls₂).totalLinks) :
    (calculateMetricsArr ns₁ ls₁).complexityScore ≤
      (calculateMetricsArr ns₂ ls₂).complexityScore := by
  have hn' : ns₁.length = ns₂.length := hn
  have hc' : (detectCircularDependencies ns₁ ls₁).length =
      (detectCircularDependencies ns₂ ls₂).length := hc
  have hl' : ls₁.length ≤ ls₂.length := hl
  show complexityScoreInt ns₁.length ls₁.length
      (detectCircularDependencies ns₁ ls₁).length ≤
    complexityScoreInt ns₂.length ls₂.length
      (detectCircularDependencies ns₂ ls₂).length
  rw [hn', hc']
  exact complexityScoreInt_mono _ _ hl'

/-- C3 witness: one node, zero links against one node, one link. -/
theorem c3_link_monotonicity_witness :
    (calculateMetricsArr [rawNodeA] []).complexityScore ≤
      (calculateMetricsArr [rawNodeA] [ghostLink]).complexityScore :=
  c3_link_monotonicity [rawNodeA] [] [rawNodeA] [ghostLink]
    (by decide) (by decide) (by decide)

/-- C4 amended: for every graph with at least one node the complexity score
equals round(nodeCount + (linkCount / max(nodeCount, 1)) × 10 +
circularDependencies × 5); when the node count is 0 the code instead takes
the average-connections term to be 0 (see the counterexample), so the
formula of the claim fails only there. -/
theorem c4_formula_pos_nodes (ns : List RawNode) (ls : List RawLink)
    (h : ns ≠ []) :
    (calculateMetricsArr ns ls).complexityScore =
      specComplexityScore (calculateMetricsArr ns ls).totalNodes
        (calculateMetricsArr ns ls).totalLinks
        (calculateMetricsArr ns ls).circularDependencies := by
  have hn : 0 < ns.length := List.length_pos.mpr h
  show complexityScoreInt ns.length ls.length
      (detectCircularDependencies ns ls).length =
    specComplexityScore ns.length ls.length
      (detectCircularDependencies ns ls).length
  rw [complexityScoreInt_eq]
  unfold specComplexityScore
  rw [if_pos hn, Nat.max_eq_left hn]

/-- C4 witness: the formula agreement on the one-node one-link graph. -/
theorem c4_formula_pos_nodes_witness :
    (calculateMetricsArr [rawNodeA] [ghostLink]).complexityScore =
      specComplexityScore (calculateMetricsArr [rawNodeA] [ghostLink]).totalNodes
        (calculateMetricsArr [rawNodeA] [ghostLink]).totalLinks
        (calculateMetricsArr [rawNodeA] [ghostLink]).circularDependencies :=
  c4_formula_pos_nodes [rawNodeA] [ghostLink] (by decide)

/-! ### The validate pipeline never emits VALIDATION_FAILED except in the
catch block (stage code lemmas for C2) -/

theorem validateBasicStructure_codes (input : RawInput) :
    ∀ e ∈ validateBasicStructure input, e.code ≠ "VALIDATION_FAILED" := by
  intro e he
  cases input with
  | nullData =>
    simp only [validateBasicStructure, List.mem_singleton] at he
    subst he
    decide
  | obj d =>
    simp only [validateBasicStructure] at he
    rcases List.mem_append.mp he with h1 | h1
    · rcases List.mem_append.mp h1 with h2 | h2
      · split at h2
        · simp at h2
        · simp only [List.mem_singleton] at h2
          subst h2
          decide
      · split at h2
        · simp at h2
        · simp only [List.mem_singleton] at h2
          subst h2
          decide
    · split at h1
      · simp only [List.mem_singleton] at h1
        subst h1
        decide
      · simp at h1

theorem validateNode_codes (node : RawNode) (index : Nat) (seenIds seenNames : List String) :
    ∀ e ∈ (validateNode node index seenIds seenNames).1, e.code ≠ "VALIDATION_FAILED" := by
  intro e he
  simp only [validateNode] at he
  rcases List.mem_append.mp he with h1 | h1
  · rcases List.mem_append.mp h1 with h2 | h2
    · rcases List.mem_append.mp h2 with h3 | h3
      · split at h3
        · simp only [List.mem_singleton] at h3
          subst h3
          simp
        · simp at h3
      · split at h3
        · simp only [List.mem_singleton] at h3
          subst h3
          simp
        · simp at h3
    · split at h2
      · simp at h2
      · simp only [List.mem_singleton] at h2
        subst h2
        simp
  · rcases hnid : node.id with _ | s
    · simp only [hnid] at h1
      simp at h1
    · simp only [hnid] at h1
      by_cases hs : s ≠ ""
      · rw [if_pos hs] at h1
        by_cases hseen : s ∈ seenIds
        · rw [if_pos hseen] at h1
          simp only [List.mem_singleton] at h1
          subst h1
          simp
        · rw [if_neg hseen] at h1
          simp at h1
      · rw [if_neg hs] at h1
        simp at h1

theorem validateNodesGo_codes :
    ∀ (ns : List RawNode) (i : Nat) (si sn : List String),
      ∀ e ∈ (validateNodesGo ns i si sn).1, e.code ≠ "VALIDATION_FAILED" := by
  intro ns
  induction ns with
  | nil => intro i si sn e he; simp [validateNodesGo] at he
  | cons n t ih =>
    intro i si sn e he
    simp only [validateNodesGo] at he
    rcases List.mem_append.mp he with h1 | h1
    · exact validateNode_codes n i si sn e h1
    · exact ih _ _ _ e h1

theorem validateNodes_codes (nodes : JField RawNode) :
    ∀ e ∈ (validateNodes nodes).1, e.code ≠ "VALIDATION_FAILED" := by
  intro e he
  cases nodes with
  | nullish => simp [validateNodes] at he
  | notArray => simp [validateNodes] at he
  | arr ns =>
    simp only [validateNodes] at he
    exact validateNodesGo_codes ns 0 [] [] e he

theorem validateLink_codes (link : RawLink) (index : Nat)
    (nodeIds linkSet : List String) :
    ∀ e ∈ (validateLink link index nodeIds linkSet).1, e.code ≠ "VALIDATION_FAILED" := by
  intro e he
  simp only [validateLink] at he
  rcases List.mem_append.mp he with h1 | h1
  · rcases List.mem_append.mp h1 with h2 | h2
    · rcases List.mem_append.mp h2 with h3 | h3
      · split at h3
        · simp at h3
        · simp only [List.mem_singleton] at h3
          subst h3
          simp
      · split at h3
        · simp at h3
        · simp only [List.mem_singleton] at h3
          subst h3
          simp
    · rcases hsrc : link.source with _ | s
      · simp only [hsrc] at h2
        simp at h2
      · simp only [hsrc] at h2
        split at h2
        · simp only [List.mem_singleton] at h2
          subst h2
          simp
        · simp at h2
  · rcases htgt : link.target with _ | t
    · simp only [htgt] at h1
      simp at h1
    · simp only [htgt] at h1
      split at h1
      · simp only [List.mem_singleton] at h1
        subst h1
        simp
      · simp at h1

theorem validateLinksGo_codes :
    ∀ (ls : List RawLink) (i : Nat) (nodeIds linkSet : List String),
      ∀ e ∈ (validateLinksGo ls i nodeIds linkSet).1, e.code ≠ "VALIDATION_FAILED" := by
  intro ls
  induction ls with
  | nil => intro i nodeIds linkSet e he; simp [validateLinksGo] at he
  | cons l t ih =>
    intro i nodeIds linkSet e he
    simp only [validateLinksGo] at he
    rcases List.mem_append.mp he with h1 | h1
    · exact validateLink_codes l i nodeIds linkSet e h1
    · exact ih _ _ _ e h1

theorem validateLinks_codes (links : JField RawLink) (nodes : JField RawNode)
    (es : List VError) (ws : List VWarning)
    (h : validateLinks links nodes = .ok (es, ws)) :
    ∀ e ∈ es, e.code ≠ "VALIDATION_FAILED" := by
  intro e he
  cases links with
  | nullish =>
    simp only [validateLinks, Except.ok.injEq, Prod.mk.injEq] at h
    obtain ⟨h1, _⟩ := h
    subst h1
    simp at he
  | notArray =>
    simp only [validateLinks, Except.ok.injEq, Prod.mk.injEq] at h
    obtain ⟨h1, _⟩ := h
    subst h1
    simp at he
  | arr ls =>
    cases nodes with
    | notArray => simp [validateLinks] at h
    | nullish =>
      simp only [validateLinks, Except.ok.injEq, Prod.mk.injEq] at h
      obtain ⟨h1, _⟩ := h
      subst h1
      exact validateLinksGo_codes ls 0 _ [] e he
    | arr ns =>
      simp only [validateLinks, Except.ok.injEq, Prod.mk.injEq] at h
      obtain ⟨h1, _⟩ := h
      subst h1
      exact validateLinksGo_codes ls 0 _ [] e he

theorem validateBody_error_codes (input : RawInput) (es : List VError)
    (ws : List VWarning) (h : validateBody input = .error (es, ws)) :
    ∀ e ∈ es, e.code ≠ "VALIDATION_FAILED" := by
  intro e he
  cases input with
  | nullData =>
    simp only [validateBody, Except.error.injEq, Prod.mk.injEq] at h
    obtain ⟨h1, _⟩ := h
    subst h1
    exact validateBasicStructure_codes _ e he
  | obj d =>
    have hpre : ∀ x ∈ validateBasicStructure (.obj d) ++ (validateNodes d.nodes).1,
        x.code ≠ "VALIDATION_FAILED" := by
      intro x hx
      rcases List.mem_append.mp hx with h1 | h1
      · exact validateBasicStructure_codes _ x h1
      · exact validateNodes_codes _ x h1
    simp only [validateBody] at h
    rcases hL : validateLinks d.links d.nodes with u | accL
    · rw [hL] at h
      simp only [Except.error.injEq, Prod.mk.injEq] at h
      obtain ⟨h1, _⟩ := h
      subst h1
      exact hpre e he
    · rw [hL] at h
      have hfull : ∀ x ∈ (validateBasicStructure (.obj d) ++ (validateNodes d.nodes).1)
          ++ accL.1, x.code ≠ "VALIDATION_FAILED" := by
        intro x hx
        rcases List.mem_append.mp hx with h1 | h1
        · exact hpre x h1
        · exact validateLinks_codes d.links d.nodes accL.1 accL.2
            (by rw [hL]) x h1
      rcases hR : validateRelationships d with u | wsR
      · rw [hR] at h
        simp only [Except.error.injEq, Prod.mk.injEq] at h
        obtain ⟨h1, _⟩ := h
        subst h1
        exact hfull e he
      · rw [hR] at h
        rcases hP : validatePerformance d with u | wsP
        · rw [hP] at h
          simp only [Except.error.injEq, Prod.mk.injEq] at h
          obtain ⟨h1, _⟩ := h
          subst h1
          exact hfull e he
        · rw [hP] at h
          rcases hM : calculateMetricsE d with _ | m
          · rw [hM] at h
            simp only [Except.error.injEq, Prod.mk.injEq] at h
            obtain ⟨h1, _⟩ := h
            subst h1
            exact hfull e he
          · rw [hM] at h
            simp at h

/-- C2: validate is a total function of its input: the report always
satisfies isValid = (errors is empty); and whenever the try block faults
(the inner pipeline returns an error), the catch produces a report carrying
exactly one record with code VALIDATION_FAILED, that record has severity
error, the metrics are reset to the all-zero defaults, and isValid is
false. -/
theorem c2_validate_total (input : RawInput) :
    ((validate input).isValid = (validate input).errors.isEmpty) ∧
    (∀ es ws, validateBody input = .error (es, ws) →
      (validate input).errors.countP (fun e => e.code == "VALIDATION_FAILED") = 1 ∧
      (∀ e ∈ (validate input).errors,
        e.code = "VALIDATION_FAILED" → e.severity = Sev.error) ∧
      (validate input).metrics = getEmptyMetrics ∧
      (validate input).isValid = false) := by
  constructor
  · rcases hb : validateBody input with ⟨es, ws⟩ | ⟨es, ws, m⟩
    · simp [validate, hb]
    · simp [validate, hb]
  · intro es ws hb
    have hcodes := validateBody_error_codes input es ws hb
    have hv : validate input =
        { isValid := false
          errors := es ++ [validationFailedError]
          warnings := ws
          metrics := getEmptyMetrics } := by
      simp [validate, hb]
    rw [hv]
    refine ⟨?_, ?_, rfl, rfl⟩
    · rw [List.countP_append]
      have h0 : es.countP (fun e => e.code == "VALIDATION_FAILED") = 0 := by
        rw [List.countP_eq_zero]
        intro e he
        simp [hcodes e he]
      rw [h0]
      decide
    · intro e he hc
      rcases List.mem_append.mp he with h1 | h1
      · exact absurd hc (hcodes e h1)
      · rw [List.mem_singleton.mp h1]
        rfl

/-- C2 witness: the fault shape evaluated at the null input (where basic
validation records MISSING_DATA and the subsequent member access faults). -/
theorem c2_validate_total_witness :
    (validate RawInput.nullData).errors.countP
      (fun e => e.code == "VALIDATION_FAILED") = 1 ∧
    (∀ e ∈ (validate RawInput.nullData).errors,
      e.code = "VALIDATION_FAILED" → e.severity = Sev.error) ∧
    (validate RawInput.nullData).metrics = getEmptyMetrics ∧
    (validate RawInput.nullData).isValid = false :=
  (c2_validate_total RawInput.nullData).2
    [{ code := "MISSING_DATA"
       message := "No component data provided"
       severity := Sev.error }] [] rfl

/-! ### Color assignment lemmas (C5) -/

theorem lookupA_append_self {β : Type} (k : String) (m : List (String × β)) (v : β)
    (h : lookupA k m = none) : lookupA k (m ++ [(k, v)]) = some v := by
  induction m with
  | nil => simp [lookupA]
  | cons p t ih =>
    obtain ⟨k', v'⟩ := p
    simp only [lookupA] at h
    by_cases hk : k' = k
    · rw [if_pos hk] at h
      simp at h
    · rw [if_neg hk] at h
      simp only [List.cons_append, lookupA, if_neg hk]
      exact ih h

theorem getColorForCategory_stable (k : String) (m : List (String × HslColor)) :
    getColorForCategory k ((getColorForCategory k m).2) =
      ((getColorForCategory k m).1, (getColorForCategory k m).2) := by
  unfold getColorForCategory
  cases hl : lookupA k m with
  | some c => simp [hl]
  | none => simp [hl, lookupA_append_self k m _ hl]

theorem getColorForCategory_fresh (k : String) (m : List (String × HslColor))
    (h : lookupA k m = none) :
    (getColorForCategory k m).1 =
      { hueMilli := hueMilliAt m.length, saturation := 70, lightness := 50 } := by
  simp [getColorForCategory, h]

theorem HueInv_getColor (k : String) {m : List (String × HslColor)}
    (h : HueInv m) : HueInv (getColorForCategory k m).2 := by
  unfold getColorForCategory
  cases hl : lookupA k m with
  | some c =>
    simpa using h
  | none =>
    simp only []
    intro i hilen
    simp only [List.get_eq_getElem]
    rcases Nat.lt_or_ge i m.length with hlt | hge
    · rw [List.getElem_append_left hlt]
      have := h i hlt
      simpa [List.get_eq_getElem] using this
    · have hieq : i = m.length := by
        simp only [List.length_append, List.length_singleton] at hilen
        omega
      subst hieq
      rw [List.getElem_concat_length]
      rfl

theorem stepInput_colorMap (i : Nat) (r : Row) (st : IngestState) :
    (stepInput i r st).colorMap = st.colorMap ∨
    ∃ k, (stepInput i r st).colorMap = (getColorForCategory k st.colorMap).2 := by
  unfold stepInput
  split
  · exact Or.inr ⟨rawOr r.highLevelInput "Input", rfl⟩
  · exact Or.inl rfl

theorem stepOutput_colorMap (i : Nat) (r : Row) (st : IngestState) :
    (stepOutput i r st).colorMap = st.colorMap ∨
    ∃ k, (stepOutput i r st).colorMap = (getColorForCategory k st.colorMap).2 := by
  unfold stepOutput
  split
  · exact Or.inr ⟨rawOr r.highLevelOutput "Output", rfl⟩
  · exact Or.inl rfl

theorem HueInv_processRow (i : Nat) (r : Row) (st : IngestState)
    (h : HueInv st.colorMap) : HueInv (processRow i r st).colorMap := by
  have h1 : HueInv (stepSolution i r st).colorMap := by
    rw [stepSolution_colorMap]
    exact h
  have h2 : HueInv (stepInput i r (stepSolution i r st)).colorMap := by
    rcases stepInput_colorMap i r (stepSolution i r st) with heq | ⟨k, heq⟩
    · rw [heq]; exact h1
    · rw [heq]; exact HueInv_getColor k h1
  rcases stepOutput_colorMap i r (stepInput i r (stepSolution i r st)) with heq | ⟨k, heq⟩
  · show HueInv (stepOutput i r (stepInput i r (stepSolution i r st))).colorMap
    rw [heq]; exact h2
  · show HueInv (stepOutput i r (stepInput i r (stepSolution i r st))).colorMap
    rw [heq]; exact HueInv_getColor k h2

theorem HueInv_ingestRows :
    ∀ (rs : List Row) (k : Nat) (st : IngestState),
      HueInv st.colorMap → HueInv (ingestRows k rs st).colorMap := by
  intro rs
  induction rs with
  | nil => exact fun k st h => h
  | cons r t ih => exact fun k st h => ih _ _ (HueInv_processRow k r st h)

/-! ### Link production lemmas (C5) -/

theorem stepInput_links_mono {i : Nat} {r : Row} {st : IngestState}
    {l : ComponentLink} (h : l ∈ st.links) : l ∈ (stepInput i r st).links := by
  unfold stepInput
  split
  · exact List.mem_append.mpr (Or.inl h)
  · exact h

theorem stepOutput_links_mono {i : Nat} {r : Row} {st : IngestState}
    {l : ComponentLink} (h : l ∈ st.links) : l ∈ (stepOutput i r st).links := by
  unfold stepOutput
  split
  · exact List.mem_append.mpr (Or.inl h)
  · exact h

theorem processRow_links_mono {i : Nat} {r : Row} {st : IngestState}
    {l : ComponentLink} (h : l ∈ st.links) : l ∈ (processRow i r st).links := by
  apply stepOutput_links_mono
  apply stepInput_links_mono
  rw [stepSolution_links]
  exact h

theorem ingestRows_links_mono :
    ∀ (rs : List Row) (k : Nat) (st : IngestState) (l : ComponentLink),
      l ∈ st.links → l ∈ (ingestRows k rs st).links := by
  intro rs
  induction rs with
  | nil => exact fun k st l h => h
  | cons r t ih => exact fun k st l h => ih _ _ _ (processRow_links_mono h)

theorem ingestRows_append :
    ∀ (xs ys : List Row) (k : Nat) (st : IngestState),
      ingestRows k (xs ++ ys) st = ingestRows (k + xs.length) ys (ingestRows k xs st) := by
  intro xs
  induction xs with
  | nil => intro ys k st; simp [ingestRows]
  | cons x t ih =>
    intro ys k st
    show ingestRows (k + 1) (t ++ ys) (processRow k x st) =
      ingestRows (k + (t.length + 1)) ys (ingestRows (k + 1) t (processRow k x st))
    rw [ih ys (k + 1) (processRow k x st)]
    congr 1
    omega

/-- The input link produced by row r from the state st. -/
theorem stepInput_produces (i : Nat) (r : Row) (st : IngestState)
    (hin : jsTrim r.solutionInput ≠ "") (hsol : jsTrim r.solutions ≠ "") :
    { source := sanitizeId r.solutionInput
      target := sanitizeId r.solutions
      type := "dependency"
      label := "provides input to"
      metadata :=
        { color := (getColorForCategory (rawOr r.highLevelInput "Input") st.colorMap).1
          category := trimOr r.highLevelInput "Input" } : ComponentLink } ∈
      (stepInput i r st).links := by
  unfold stepInput
  rw [if_pos ⟨hin, hsol⟩]
  exact List.mem_append.mpr (Or.inr (by simp))

/-- C5 amended: within one ingestion run the color assigner returns the
same color on repeat lookups of the same key and leaves its cache
unchanged; a fresh key is assigned hue (N × 137.508) mod 360 (in
thousandths of a degree) where N is the number of previously assigned
keys, with saturation 70 and lightness 50, and the cache entry at position
N always carries exactly that hue; and every link produced from a Solution
Input cell carries metadata.category = the trimmed High Level Input cell
(default Input) while its metadata.color is the color the assigner returns
for the raw, untrimmed High Level Input cell (default Input only when the
cell is exactly empty) in the cache state reached before its row. -/
theorem c5_color_raw_key :
    (∀ (k : String) (m : List (String × HslColor)),
      getColorForCategory k ((getColorForCategory k m).2) =
        ((getColorForCategory k m).1, (getColorForCategory k m).2)) ∧
    (∀ (k : String) (m : List (String × HslColor)), lookupA k m = none →
      (getColorForCategory k m).1 =
        { hueMilli := hueMilliAt m.length, saturation := 70, lightness := 50 }) ∧
    (∀ (rows : List Row) (i : Nat)
      (h : i < (ingestRows 0 rows emptyIngestState).colorMap.length),
      ((ingestRows 0 rows emptyIngestState).colorMap.get ⟨i, h⟩).2 =
        { hueMilli := hueMilliAt i, saturation := 70, lightness := 50 }) ∧
    (∀ (rows : List Row) (fileName : String) (i : Nat) (hi : i < rows.length),
      jsTrim (rows.get ⟨i, hi⟩).solutionInput ≠ "" →
      jsTrim (rows.get ⟨i, hi⟩).solutions ≠ "" →
      ∃ l ∈ (transformToComponentData rows fileName).links,
        l.source = sanitizeId (rows.get ⟨i, hi⟩).solutionInput ∧
        l.target = sanitizeId (rows.get ⟨i, hi⟩).solutions ∧
        l.label = "provides input to" ∧
        l.metadata.category = trimOr (rows.get ⟨i, hi⟩).highLevelInput "Input" ∧
        l.metadata.color =
          (getColorForCategory (rawOr (rows.get ⟨i, hi⟩).highLevelInput "Input")
            (ingestRows 0 (rows.take i) emptyIngestState).colorMap).1) := by
  refine ⟨getColorForCategory_stable, getColorForCategory_fresh, ?_, ?_⟩
  · intro rows i h
    exact HueInv_ingestRows rows 0 emptyIngestState
      (by intro j hj; simp [emptyIngestState] at hj) i h
  · intro rows fileName i hi hin hsol
    set r := rows.get ⟨i, hi⟩ with hr
    set S := ingestRows 0 (rows.take i) emptyIngestState with hS
    have hsplit : ingestRows 0 rows emptyIngestState =
        ingestRows (i + 1) (rows.drop (i + 1)) (processRow i r S) := by
      conv_lhs => rw [← List.take_append_drop i rows]
      rw [ingestRows_append]
      have hlen : (rows.take i).length = i := by
        rw [List.length_take]
        omega
      rw [hlen, Nat.zero_add]
      have hdrop : rows.drop i = r :: rows.drop (i + 1) := by
        rw [hr]
        simp only [List.get_eq_getElem]
        exact List.drop_eq_getElem_cons hi
      rw [hdrop]
      rfl
    have hmem0 := stepInput_produces i r (stepSolution i r S) hin hsol
    rw [stepSolution_colorMap] at hmem0
    have hmem1 := @stepOutput_links_mono i r (stepInput i r (stepSolution i r S)) _ hmem0
    refine ⟨⟨sanitizeId r.solutionInput, sanitizeId r.solutions, "dependency",
      "provides input to",
      ⟨(getColorForCategory (rawOr r.highLevelInput "Input") S.colorMap).1,
        trimOr r.highLevelInput "Input"⟩⟩, ?_, rfl, rfl, rfl, rfl, rfl⟩
    show _ ∈ (ingestRows 0 rows emptyIngestState).links
    rw [hsplit]
    exact ingestRows_links_mono _ _ _ _ hmem1

/-- C5 witness: the amended properties at concrete inputs — a repeat lookup,
a fresh lookup on the empty cache, the one-entry cache of a one-row run,
and the input link of that run. -/
theorem c5_color_raw_key_witness :
    (getColorForCategory "A" ((getColorForCategory "A" []).2) =
      ((getColorForCategory "A" []).1, (getColorForCategory "A" []).2)) ∧
    ((getColorForCategory "A" []).1 =
      { hueMilli := hueMilliAt 0, saturation := 70, lightness := 50 }) ∧
    (((ingestRows 0 [rowHliB1] emptyIngestState).colorMap.get
        ⟨0, by decide⟩).2 =
      { hueMilli := hueMilliAt 0, saturation := 70, lightness := 50 }) ∧
    (∃ l ∈ (transformToComponentData [rowHliB1] "f").links,
      l.source = sanitizeId ([rowHliB1].get ⟨0, by decide⟩).solutionInput ∧
      l.target = sanitizeId ([rowHliB1].get ⟨0, by decide⟩).solutions ∧
      l.label = "provides input to" ∧
      l.metadata.category = trimOr ([rowHliB1].get ⟨0, by decide⟩).highLevelInput "Input" ∧
      l.metadata.color =
        (getColorForCategory (rawOr ([rowHliB1].get ⟨0, by decide⟩).highLevelInput "Input")
          (ingestRows 0 ([rowHliB1].take 0) emptyIngestState).colorMap).1) :=
  ⟨c5_color_raw_key.1 "A" [],
   c5_color_raw_key.2.1 "A" [] rfl,
   c5_color_raw_key.2.2.1 [rowHliB1] 0 (by decide),
   c5_color_raw_key.2.2.2 [rowHliB1] "f" 0 (by decide) (by decide) (by decide)⟩

end CompViz
